import Mathlib

/-!
Verification of the px4esc firmware core against its specification.

The development shallowly embeds the two source files:
  * `src/firmware/src/foc/common.hpp` — `CompleteParameterSet`, `EventCounter`
    and the unit-conversion primitives;
  * `src/firmware/src/board/board.cpp` — `tryReadDeviceSignature` and the
    `BeepingTask` state machine (constructor, `onMainIRQ`, `onNextPWMPeriod`).

Modelling conventions:
  * the C++ `Scalar` (a floating-point type) is modelled as `ℚ`, so all
    arithmetic is exact;
  * machine integers are `Nat` reduced modulo `2 ^ width` exactly where the
    source can overflow (`unsigned next_phase_index_` modulo `2 ^ 32`,
    `std::uint64_t cnt_` modulo `2 ^ 64`);
  * `assert(false); return 0;` in the conversion primitives is modelled by
    returning a pair `(assertion_failed, value) : Bool × Scalar`;
  * types that the sources only reference (parameter groups, `math::Range`,
    `math::Pi`, the slow-cadence `Result`, `board::motor::Status`) are
    modelled from the spec, each marked `Modelled from the spec:` below.
-/

namespace PX4ESC

/-- The C++ scalar type, modelled exactly as the rationals. -/
abbrev Scalar := ℚ

/-- Source constant (foc/common.hpp): `SquareRootOf3 = 1.7320508075688772`. -/
def SquareRootOf3 : Scalar := 1.7320508075688772

/-- Modelled from the spec: `math::Pi` (math.hpp is not among the sources) is
the constant π used by the conversion primitives.  A positive rational
approximation; the theorems below depend only on its positivity. -/
def mathPi : Scalar := 3.141592653589793

/-- Modelled from the spec: `ControllerParameters` is declared outside the
given sources; each parameter group is "independently validated", so it is
abstracted to its validity verdict. -/
structure ControllerParameters where
  valid : Bool
deriving DecidableEq

/-- Validity check of the controller parameter group (declaration outside the
given sources; abstracted to the stored verdict). -/
def ControllerParameters.isValid (p : ControllerParameters) : Bool := p.valid

/-- Modelled from the spec: `MotorParameters`, abstracted to its validity
verdict. -/
structure MotorParameters where
  valid : Bool
deriving DecidableEq

/-- Validity check of the motor parameter group. -/
def MotorParameters.isValid (p : MotorParameters) : Bool := p.valid

/-- Modelled from the spec: `ObserverParameters`, abstracted to its validity
verdict. -/
structure ObserverParameters where
  valid : Bool
deriving DecidableEq

/-- Validity check of the observer parameter group. -/
def ObserverParameters.isValid (p : ObserverParameters) : Bool := p.valid

/-- Modelled from the spec: `board::motor::PWMParameters` carries the PWM
timing (the period consumed by `BeepingTask` through the task context) and,
being an "independently validated" group, a validity verdict. -/
structure PWMParameters where
  period : Scalar
  valid : Bool
deriving DecidableEq

/-- Validity check of the PWM parameter group. -/
def PWMParameters.isValid (p : PWMParameters) : Bool := p.valid

/-- Source (foc/common.hpp): `CompleteParameterSet` aggregates the four
parameter groups. -/
structure CompleteParameterSet where
  controller : ControllerParameters
  motor : MotorParameters
  observer : ObserverParameters
  pwm : PWMParameters
deriving DecidableEq

/-- Source (foc/common.hpp, lines 58-62):
`return controller.isValid() && motor.isValid();` -/
def CompleteParameterSet.isValid (s : CompleteParameterSet) : Bool :=
  s.controller.isValid && s.motor.isValid

/-- Spec-side predicate (spec.md §3 and claim C1): the snapshot is valid iff
every one of the four constituent groups reports valid.  Stated from the
spec's words for comparison with `CompleteParameterSet.isValid`. -/
def CompleteParameterSet.specAllGroupsValid (s : CompleteParameterSet) : Bool :=
  s.controller.isValid && s.motor.isValid && s.observer.isValid && s.pwm.isValid

/-- Source (foc/common.hpp): `EventCounter`, a `std::uint64_t` counter. -/
structure EventCounter where
  cnt_ : Nat
deriving DecidableEq

/-- Source: `void increment() { cnt_++; }` — 64-bit unsigned increment. -/
def EventCounter.increment (c : EventCounter) : EventCounter :=
  ⟨(c.cnt_ + 1) % 2 ^ 64⟩

/-- Source: `std::uint64_t get() const { return cnt_; }` -/
def EventCounter.get (c : EventCounter) : Nat := c.cnt_

/-- Source (foc/common.hpp, lines 113-127): `convertFluxLinkageToKV`.
The first component records whether `assert(false)` was reached. -/
def convertFluxLinkageToKV (flux_linkage : Scalar) (num_poles : Nat) :
    Bool × Scalar :=
  if 0 < flux_linkage ∧ 2 ≤ num_poles ∧ num_poles % 2 = 0 then
    (false, (20 * SquareRootOf3) / (mathPi * flux_linkage * (num_poles : Scalar)))
  else
    (true, 0)

/-- Source (foc/common.hpp, lines 134-148): `convertKVToFluxLinkage`. -/
def convertKVToFluxLinkage (kv : Scalar) (num_poles : Nat) : Bool × Scalar :=
  if 0 < kv ∧ 2 ≤ num_poles ∧ num_poles % 2 = 0 then
    (false, (20 * SquareRootOf3) / (mathPi * kv * (num_poles : Scalar)))
  else
    (true, 0)

/-- Source (foc/common.hpp, lines 155-158): `convertAngularVelocityToRPM`.
The source performs no validation at all (it is a `constexpr` with no
assertion), so the assertion flag is constantly `false`. -/
def convertAngularVelocityToRPM (radian_per_sec : Scalar) : Bool × Scalar :=
  (false, (radian_per_sec * 60) / (mathPi * 2))

/-- Source (foc/common.hpp, lines 166-179):
`convertRotationRateElectricalToMechanical`; note the integer division
`num_poles / 2U` before the cast to `Scalar`. -/
def convertRotationRateElectricalToMechanical (rate : Scalar) (num_poles : Nat) :
    Bool × Scalar :=
  if 2 ≤ num_poles ∧ num_poles % 2 = 0 then
    (false, rate / ((num_poles / 2 : Nat) : Scalar))
  else
    (true, 0)

/-- Source (board.cpp, lines 188-199): `tryReadDeviceSignature` scans the
signature bytes and reports `true` (present) as soon as one byte differs from
both `0xFF` and `0x00`; otherwise it reports `false` (absent).  The fixed-size
signature region is modelled as the list of its bytes. -/
def tryReadDeviceSignature : List Nat → Bool
  | [] => false
  | x :: rest =>
      if x ≠ 255 ∧ x ≠ 0 then true else tryReadDeviceSignature rest

/-- Spec-side predicate (spec.md §6 and claim C8): the signature is absent
when all bytes are the erase value `0xFF` or all bytes are zero.  Stated from
the spec's words for comparison with `tryReadDeviceSignature`. -/
def specSignatureAbsent (sign : List Nat) : Prop :=
  (∀ x ∈ sign, x = 255) ∨ (∀ x ∈ sign, x = 0)

instance (sign : List Nat) : Decidable (specSignatureAbsent sign) := by
  unfold specSignatureAbsent
  exact inferInstance

/-- Modelled from the spec: `math::Range` with its `constrain` clamp (math.hpp
is not among the sources). -/
structure Range where
  lo : Scalar
  hi : Scalar

/-- Modelled from the spec: `Range::constrain` clamps its argument into the
closed interval `[lo, hi]`. -/
def Range.constrain (r : Range) (x : Scalar) : Scalar := max r.lo (min x r.hi)

/-- Source (board.cpp, line 310): `DurationLimits{0, 3.0F}`. -/
def DurationLimits : Range := ⟨0, 3⟩

/-- Source (board.cpp, line 311): `FrequencyLimits{100.0F, 15000.0F}`. -/
def FrequencyLimits : Range := ⟨100, 15000⟩

/-- Modelled from the spec: the slow-cadence check result (task.hpp is not
among the sources) is one of in-progress, success, or failure with an exit
code. -/
inductive Result where
  | inProgress : Result
  | success : Result
  | failure : Nat → Result
deriving DecidableEq

/-- Source (board.cpp, line 313): `ExitCodeBadHardwareStatus = 1`. -/
def ExitCodeBadHardwareStatus : Nat := 1

/-- Modelled from the spec: `board::motor::Status` (declared outside the given
sources) provides at minimum the `power_ok` flag, the only field the beeping
task reads. -/
structure MotorStatus where
  power_ok : Bool
deriving DecidableEq

/-- Modelled from the spec: the board-capability part of the task context
carrying the PWM timing parameters. -/
structure BoardFeatures where
  pwm : PWMParameters
deriving DecidableEq

/-- Modelled from the spec: `TaskContext` (task.hpp is not among the sources)
bundles the configuration snapshot with the board capability handles; the
beeping task reads only `board.pwm.period` from it. -/
structure TaskContext where
  params : CompleteParameterSet
  board : BoardFeatures
deriving DecidableEq

/-- The three-phase output vector `Vector<3>`. -/
structure Vector3 where
  x0 : Scalar
  x1 : Scalar
  x2 : Scalar
deriving DecidableEq

/-- `Vector<3>::Zero()`. -/
def Vector3.zero : Vector3 := ⟨0, 0, 0⟩

/-- Indexed component assignment, `v[i] = val` (indices beyond 2 land on the
last component; the source only ever uses indices reduced modulo 3). -/
def Vector3.set (v : Vector3) (i : Nat) (val : Scalar) : Vector3 :=
  if i = 0 then { v with x0 := val }
  else if i = 1 then { v with x1 := val }
  else { v with x2 := val }

/-- Source (board.cpp, lines 308-380): the `BeepingTask` state.  Field names
follow the source; `next_phase_index_` is a 32-bit `unsigned`. -/
structure BeepingTask where
  context_ : TaskContext
  excitation_period_ : Scalar
  remaining_duration_ : Scalar
  time_to_next_excitation_ : Scalar
  next_phase_index_ : Nat
deriving DecidableEq

/-- Source (board.cpp, lines 324-331): the `BeepingTask` constructor.
`excitation_period_` is the reciprocal of the clamped frequency, the remaining
duration is the clamped duration, and the countdown starts at one excitation
period. -/
def BeepingTask.init (context : TaskContext) (frequency duration : Scalar) :
    BeepingTask :=
  { context_ := context
  , excitation_period_ := 1 / FrequencyLimits.constrain frequency
  , remaining_duration_ := DurationLimits.constrain duration
  , time_to_next_excitation_ := 1 / FrequencyLimits.constrain frequency
  , next_phase_index_ := 0 }

/-- Source (board.cpp, lines 335-350): `BeepingTask::onMainIRQ`.  The `period`
argument is ignored by the source (`(void) period;`). -/
def BeepingTask.onMainIRQ (self : BeepingTask) (period : Scalar)
    (hw_status : MotorStatus) : Result :=
  if !hw_status.power_ok then
    Result.failure ExitCodeBadHardwareStatus
  else if self.remaining_duration_ ≤ 0 then
    Result.success
  else
    Result.inProgress

/-- Source (board.cpp, lines 352-379): `BeepingTask::onNextPWMPeriod`.
Returns the successor state together with the emitted pair
`(output vector, driver_active)`.  The phase-current and inverter-voltage
inputs are discarded by the source before any use (`(void)` casts); the
`unsigned` phase counter is post-incremented modulo `2 ^ 32`. -/
def BeepingTask.onNextPWMPeriod (self : BeepingTask)
    (phase_currents_ab : Scalar × Scalar) (inverter_voltage : Scalar) :
    BeepingTask × Vector3 × Bool :=
  if 0 ≤ self.remaining_duration_ then
    let rem := self.remaining_duration_ - self.context_.board.pwm.period
    let ttne := self.time_to_next_excitation_ - self.context_.board.pwm.period
    if ttne ≤ 0 then
      ( { self with
            remaining_duration_ := rem
          , time_to_next_excitation_ := ttne + self.excitation_period_
          , next_phase_index_ := (self.next_phase_index_ + 1) % 2 ^ 32 }
      , Vector3.zero.set (self.next_phase_index_ % 3) 1
      , true )
    else
      ( { self with
            remaining_duration_ := rem
          , time_to_next_excitation_ := ttne }
      , Vector3.zero
      , true )
  else
    (self, Vector3.zero, false)

/-- One PWM-period step of the task state (the emitted outputs do not depend
on the discarded inputs, see `onNextPWMPeriod_inputs_irrelevant`). -/
def BeepingTask.stepState (self : BeepingTask) : BeepingTask :=
  (self.onNextPWMPeriod (0, 0) 0).1

/-- The task state after `n` successive `onNextPWMPeriod` calls. -/
def BeepingTask.runN (self : BeepingTask) : Nat → BeepingTask
  | 0 => self
  | n + 1 => (self.runN n).stepState

/-- The `driver_active` flag emitted by the `n`-th (0-based) call. -/
def BeepingTask.activeAt (self : BeepingTask) (n : Nat) : Bool :=
  ((self.runN n).onNextPWMPeriod (0, 0) 0).2.2

/-- The pulse emitted by the `n`-th (0-based) call: `some phase` when the call
takes the excitation branch (remaining duration still nonnegative and the
decremented countdown at or below zero), `none` otherwise.  The phase is the
counter value reduced modulo 3, exactly the index written by the source. -/
def BeepingTask.pulseAt (self : BeepingTask) (n : Nat) : Option Nat :=
  let t := self.runN n
  if 0 ≤ t.remaining_duration_ ∧
      t.time_to_next_excitation_ - t.context_.board.pwm.period ≤ 0 then
    some (t.next_phase_index_ % 3)
  else
    none

/-- Number of pulses emitted by the first `n` calls. -/
def BeepingTask.pulseCnt (self : BeepingTask) : Nat → Nat
  | 0 => 0
  | n + 1 => self.pulseCnt n + (if (self.pulseAt n).isSome then 1 else 0)

/-- Number of active calls (calls entered with nonnegative remaining duration)
among the first `n` calls. -/
def BeepingTask.activeCnt (self : BeepingTask) : Nat → Nat
  | 0 => 0
  | n + 1 =>
      self.activeCnt n + (if 0 ≤ (self.runN n).remaining_duration_ then 1 else 0)

/-- A concrete configuration snapshot used by the witnesses. -/
def sampleParams : CompleteParameterSet :=
  ⟨⟨true⟩, ⟨true⟩, ⟨true⟩, ⟨1, true⟩⟩

/-- A concrete task context whose PWM period is 1, used by the witnesses. -/
def ctx1 : TaskContext := ⟨sampleParams, ⟨⟨1, true⟩⟩⟩

/-! ### Helper lemmas about the clamps -/

lemma constrain_frequency_bounds (f : Scalar) :
    100 ≤ FrequencyLimits.constrain f ∧ FrequencyLimits.constrain f ≤ 15000 := by
  unfold FrequencyLimits Range.constrain
  exact ⟨le_max_left _ _, max_le (by norm_num) (min_le_right _ _)⟩

lemma constrain_duration_bounds (d : Scalar) :
    0 ≤ DurationLimits.constrain d ∧ DurationLimits.constrain d ≤ 3 := by
  unfold DurationLimits Range.constrain
  exact ⟨le_max_left _ _, max_le (by norm_num) (min_le_right _ _)⟩

lemma excitation_period_bounds (f : Scalar) :
    1 / 15000 ≤ 1 / FrequencyLimits.constrain f ∧
      1 / FrequencyLimits.constrain f ≤ 1 / 100 := by
  obtain ⟨hlo, hhi⟩ := constrain_frequency_bounds f
  have hpos : (0:ℚ) < FrequencyLimits.constrain f := lt_of_lt_of_le (by norm_num) hlo
  constructor
  · exact one_div_le_one_div_of_le hpos hhi
  · exact one_div_le_one_div_of_le (by norm_num) hlo

/-! ### Claim C1 — `CompleteParameterSet::isValid` -/

/-- C1 counterexample: a snapshot whose observer and pwm groups report invalid
while controller and motor report valid still satisfies `isValid`, so
`isValid` can return `true` while a constituent group is invalid. -/
theorem C1_counterexample :
    CompleteParameterSet.isValid ⟨⟨true⟩, ⟨true⟩, ⟨false⟩, ⟨1, false⟩⟩ = true ∧
    CompleteParameterSet.specAllGroupsValid ⟨⟨true⟩, ⟨true⟩, ⟨false⟩, ⟨1, false⟩⟩
      = false :=
  ⟨rfl, rfl⟩

/-- C1 (amended): `isValid` holds iff the controller and motor groups report
valid; the observer and pwm groups are not consulted. -/
theorem C1_amended_isValid_iff (s : CompleteParameterSet) :
    s.isValid = true ↔
      s.controller.isValid = true ∧ s.motor.isValid = true := by
  simp [CompleteParameterSet.isValid]

/-! ### Claim C2 — `BeepingTask::onMainIRQ` -/

/-- C2: for every task state, ignored elapsed period and hardware status, the
slow-cadence check returns failure with the fixed exit code whenever power is
not OK (regardless of the remaining duration), success when power is OK and
the remaining duration is at or below zero, and in-progress otherwise. -/
theorem C2_onMainIRQ_cases (s : BeepingTask) (period : Scalar)
    (hw : MotorStatus) :
    (hw.power_ok = false →
        s.onMainIRQ period hw = Result.failure ExitCodeBadHardwareStatus)
  ∧ (hw.power_ok = true → s.remaining_duration_ ≤ 0 →
        s.onMainIRQ period hw = Result.success)
  ∧ (hw.power_ok = true → 0 < s.remaining_duration_ →
        s.onMainIRQ period hw = Result.inProgress) := by
  unfold BeepingTask.onMainIRQ
  refine ⟨?_, ?_, ?_⟩
  · intro h; simp [h]
  · intro h hr; simp [h, hr]
  · intro h hr; simp [h, not_le.mpr hr]

/-- C2 witness: the three cases at concrete states (a freshly constructed
task with clamped duration 2, respectively 0) and concrete statuses. -/
theorem C2_witness :
    (BeepingTask.init ctx1 100 2).onMainIRQ 0 ⟨false⟩
        = Result.failure ExitCodeBadHardwareStatus
  ∧ (BeepingTask.init ctx1 100 0).onMainIRQ 0 ⟨true⟩ = Result.success
  ∧ (BeepingTask.init ctx1 100 2).onMainIRQ 0 ⟨true⟩ = Result.inProgress := by
  refine ⟨(C2_onMainIRQ_cases _ 0 ⟨false⟩).1 rfl,
          (C2_onMainIRQ_cases _ 0 ⟨true⟩).2.1 rfl ?_,
          (C2_onMainIRQ_cases _ 0 ⟨true⟩).2.2 rfl ?_⟩
  · show DurationLimits.constrain 0 ≤ 0
    norm_num [DurationLimits, Range.constrain, min_def, max_def]
  · show (0:Scalar) < DurationLimits.constrain 2
    norm_num [DurationLimits, Range.constrain, min_def, max_def]

/-! ### Claim C5 — excitation period from the clamped frequency -/

/-- C5: the excitation period computed at construction is the reciprocal of
the clamped frequency; for any requested frequency outside [100, 15000] it
differs from the reciprocal of the raw input. -/
theorem C5_excitation_period (ctx : TaskContext) (f d : Scalar) :
    (BeepingTask.init ctx f d).excitation_period_
        = 1 / FrequencyLimits.constrain f
  ∧ ((f < 100 ∨ 15000 < f) →
        (BeepingTask.init ctx f d).excitation_period_ ≠ 1 / f) := by
  refine ⟨rfl, ?_⟩
  rintro (h | h)
  · have hf15 : f ≤ 15000 := le_of_lt (lt_trans h (by norm_num))
    have hc : FrequencyLimits.constrain f = 100 := by
      unfold FrequencyLimits Range.constrain
      rw [min_eq_left hf15, max_eq_left (le_of_lt h)]
    show (1:ℚ) / FrequencyLimits.constrain f ≠ 1 / f
    rw [hc]
    rcases le_or_lt f 0 with hf | hf
    · have hfle : 1 / f ≤ 0 := one_div_nonpos.mpr hf
      have hpos : (0:ℚ) < 1 / 100 := by norm_num
      exact (ne_of_lt (lt_of_le_of_lt hfle hpos)).symm
    · exact ne_of_lt (one_div_lt_one_div_of_lt hf h)
  · have hc : FrequencyLimits.constrain f = 15000 := by
      unfold FrequencyLimits Range.constrain
      rw [min_eq_right (le_of_lt h), max_eq_right (by norm_num : (100:ℚ) ≤ 15000)]
    show (1:ℚ) / FrequencyLimits.constrain f ≠ 1 / f
    rw [hc]
    exact (ne_of_lt (one_div_lt_one_div_of_lt (by norm_num) h)).symm

/-- C5 witness: requesting 20000 Hz yields the reciprocal of the clamped
15000 Hz, not the reciprocal of 20000 Hz. -/
theorem C5_witness :
    ((20000:Scalar) < 100 ∨ (15000:Scalar) < 20000)
  ∧ (BeepingTask.init ctx1 20000 0).excitation_period_ ≠ 1 / 20000 :=
  ⟨Or.inr (by norm_num),
   (C5_excitation_period ctx1 20000 0).2 (Or.inr (by norm_num))⟩

/-! ### Claim C6 — flux linkage / KV round trip -/

/-- C6: for positive flux linkage and even pole count at least 2, converting
to a velocity constant and back returns the flux linkage exactly (the model is
over `ℚ`, so "within floating-point tolerance" becomes exact equality), and
neither conversion reports an assertion failure. -/
theorem C6_roundtrip (f : Scalar) (p : Nat) (hf : 0 < f) (h2 : 2 ≤ p)
    (he : p % 2 = 0) :
    (convertFluxLinkageToKV f p).1 = false
  ∧ (convertKVToFluxLinkage (convertFluxLinkageToKV f p).2 p).1 = false
  ∧ (convertKVToFluxLinkage (convertFluxLinkageToKV f p).2 p).2 = f := by
  have hS : (0:ℚ) < 20 * SquareRootOf3 := by norm_num [SquareRootOf3]
  have hPi : (0:ℚ) < mathPi := by norm_num [mathPi]
  have hpn : 0 < p := by omega
  have hp : (0:ℚ) < (p : ℚ) := by exact_mod_cast hpn
  have hval : (convertFluxLinkageToKV f p).2
      = (20 * SquareRootOf3) / (mathPi * f * (p : ℚ)) := by
    unfold convertFluxLinkageToKV
    rw [if_pos ⟨hf, h2, he⟩]
  have hkv : 0 < (convertFluxLinkageToKV f p).2 := by
    rw [hval]
    exact div_pos hS (mul_pos (mul_pos hPi hf) hp)
  refine ⟨?_, ?_, ?_⟩
  · unfold convertFluxLinkageToKV
    rw [if_pos ⟨hf, h2, he⟩]
  · unfold convertKVToFluxLinkage
    rw [if_pos ⟨hkv, h2, he⟩]
  · unfold convertKVToFluxLinkage
    rw [if_pos ⟨hkv, h2, he⟩, hval]
    have hPine : mathPi ≠ 0 := ne_of_gt hPi
    have hpne : (p:ℚ) ≠ 0 := ne_of_gt hp
    have hfne : f ≠ 0 := ne_of_gt hf
    have hSne : 20 * SquareRootOf3 ≠ 0 := ne_of_gt hS
    field_simp
    ring

/-- C6 witness: round trip at flux linkage 1 Wb and pole count 2. -/
theorem C6_witness :
    (0:ℚ) < 1 ∧ (convertKVToFluxLinkage (convertFluxLinkageToKV 1 2).2 2).2 = 1 :=
  ⟨by decide, (C6_roundtrip 1 2 (by decide) (by decide) (by decide)).2.2⟩

/-! ### Claim C7 — precondition violations on bad pole counts -/

/-- C7 counterexample: `convertAngularVelocityToRPM` takes no pole count,
performs no validation, never reports an assertion failure, and returns a
nonzero value here — so it is not among the functions that "report a
precondition violation and return zero" for bad pole counts. -/
theorem C7_counterexample :
    (convertAngularVelocityToRPM 1).1 = false
  ∧ (convertAngularVelocityToRPM 1).2 ≠ 0 := by
  constructor
  · rfl
  · unfold convertAngularVelocityToRPM mathPi
    norm_num

/-- C7 (amended): for every pole count that is odd or less than 2, each of the
three conversion functions that take a pole count reports an assertion
failure and returns zero, for all scalar arguments. -/
theorem C7_amended_pole_check (p : Nat) (hp : p < 2 ∨ p % 2 = 1)
    (f kv rate : Scalar) :
    convertFluxLinkageToKV f p = (true, 0)
  ∧ convertKVToFluxLinkage kv p = (true, 0)
  ∧ convertRotationRateElectricalToMechanical rate p = (true, 0) := by
  have hc : ¬ (2 ≤ p ∧ p % 2 = 0) := by omega
  refine ⟨?_, ?_, ?_⟩
  · unfold convertFluxLinkageToKV
    rw [if_neg]
    rintro ⟨-, h⟩
    exact hc h
  · unfold convertKVToFluxLinkage
    rw [if_neg]
    rintro ⟨-, h⟩
    exact hc h
  · unfold convertRotationRateElectricalToMechanical
    rw [if_neg hc]

/-- C7 witness: pole count 3 (odd) makes all three pole-count-taking
conversions fail their precondition check and return zero. -/
theorem C7_witness :
    ((3:Nat) % 2 = 1)
  ∧ (convertFluxLinkageToKV 1 3 = (true, 0)
      ∧ convertKVToFluxLinkage 1 3 = (true, 0)
      ∧ convertRotationRateElectricalToMechanical 1 3 = (true, 0)) :=
  ⟨by decide, C7_amended_pole_check 3 (Or.inr (by decide)) 1 1 1⟩

/-! ### Claim C8 — device signature presence -/

/-- C8 counterexample: a signature region mixing erase bytes and zero bytes is
reported absent by the code, although it is neither all-0xFF nor all-zero. -/
theorem C8_counterexample :
    tryReadDeviceSignature [255, 0] = false ∧ ¬ specSignatureAbsent [255, 0] := by
  decide

/-- C8 (amended): the signature is reported absent exactly when every byte is
the erase value 0xFF or the value zero (mixtures included); any byte that is
neither makes it reported present. -/
theorem C8_amended_absent_iff (sign : List Nat) :
    tryReadDeviceSignature sign = false ↔ ∀ x ∈ sign, x = 255 ∨ x = 0 := by
  induction sign with
  | nil => simp [tryReadDeviceSignature]
  | cons x rest ih =>
      unfold tryReadDeviceSignature
      by_cases h : x ≠ 255 ∧ x ≠ 0
      · simp only [if_pos h, List.mem_cons]
        constructor
        · intro hf
          exact absurd hf (by simp)
        · intro hall
          have hx := hall x (Or.inl rfl)
          tauto
      · simp only [if_neg h, List.mem_cons, ih]
        push_neg at h
        constructor
        · intro hall y hy
          rcases hy with rfl | hy
          · by_cases hx : y = 255
            · exact Or.inl hx
            · exact Or.inr (h hx)
          · exact hall y hy
        · intro hall y hy
          exact hall y (Or.inr hy)

/-! ### Helper lemmas about the `BeepingTask` step and trace -/

lemma onNextPWMPeriod_inputs_irrelevant (s : BeepingTask)
    (ab : Scalar × Scalar) (v : Scalar) :
    s.onNextPWMPeriod ab v = s.onNextPWMPeriod (0, 0) 0 := rfl

lemma stepState_frozen (s : BeepingTask) (h : ¬ 0 ≤ s.remaining_duration_) :
    s.stepState = s := by
  simp [BeepingTask.stepState, BeepingTask.onNextPWMPeriod, h]

lemma stepState_pulse (s : BeepingTask) (h0 : 0 ≤ s.remaining_duration_)
    (h1 : s.time_to_next_excitation_ - s.context_.board.pwm.period ≤ 0) :
    s.stepState =
      { s with
          remaining_duration_ :=
            s.remaining_duration_ - s.context_.board.pwm.period
        , time_to_next_excitation_ :=
            s.time_to_next_excitation_ - s.context_.board.pwm.period
              + s.excitation_period_
        , next_phase_index_ := (s.next_phase_index_ + 1) % 2 ^ 32 } := by
  simp [BeepingTask.stepState, BeepingTask.onNextPWMPeriod, h0, h1]

lemma stepState_quiet (s : BeepingTask) (h0 : 0 ≤ s.remaining_duration_)
    (h1 : ¬ s.time_to_next_excitation_ - s.context_.board.pwm.period ≤ 0) :
    s.stepState =
      { s with
          remaining_duration_ :=
            s.remaining_duration_ - s.context_.board.pwm.period
        , time_to_next_excitation_ :=
            s.time_to_next_excitation_ - s.context_.board.pwm.period } := by
  simp [BeepingTask.stepState, BeepingTask.onNextPWMPeriod, h0, h1]

lemma stepState_context (s : BeepingTask) : s.stepState.context_ = s.context_ := by
  by_cases h0 : 0 ≤ s.remaining_duration_
  · by_cases h1 : s.time_to_next_excitation_ - s.context_.board.pwm.period ≤ 0
    · rw [stepState_pulse s h0 h1]
    · rw [stepState_quiet s h0 h1]
  · rw [stepState_frozen s h0]

lemma stepState_excitation (s : BeepingTask) :
    s.stepState.excitation_period_ = s.excitation_period_ := by
  by_cases h0 : 0 ≤ s.remaining_duration_
  · by_cases h1 : s.time_to_next_excitation_ - s.context_.board.pwm.period ≤ 0
    · rw [stepState_pulse s h0 h1]
    · rw [stepState_quiet s h0 h1]
  · rw [stepState_frozen s h0]

lemma runN_context (s : BeepingTask) (n : Nat) :
    (s.runN n).context_ = s.context_ := by
  induction n with
  | zero => rfl
  | succ n ih =>
      show (s.runN n).stepState.context_ = s.context_
      rw [stepState_context, ih]

lemma runN_excitation (s : BeepingTask) (n : Nat) :
    (s.runN n).excitation_period_ = s.excitation_period_ := by
  induction n with
  | zero => rfl
  | succ n ih =>
      show (s.runN n).stepState.excitation_period_ = s.excitation_period_
      rw [stepState_excitation, ih]

lemma onNextPWMPeriod_active_iff (s : BeepingTask) (ab : Scalar × Scalar)
    (v : Scalar) :
    (s.onNextPWMPeriod ab v).2.2 = true ↔ 0 ≤ s.remaining_duration_ := by
  by_cases h0 : 0 ≤ s.remaining_duration_
  · by_cases h1 : s.time_to_next_excitation_ - s.context_.board.pwm.period ≤ 0
    · simp [BeepingTask.onNextPWMPeriod, h0, h1]
    · simp [BeepingTask.onNextPWMPeriod, h0, h1]
  · simp [BeepingTask.onNextPWMPeriod, h0]

lemma stepState_rem_active (s : BeepingTask) (h0 : 0 ≤ s.remaining_duration_) :
    s.stepState.remaining_duration_ =
      s.remaining_duration_ - s.context_.board.pwm.period := by
  by_cases h1 : s.time_to_next_excitation_ - s.context_.board.pwm.period ≤ 0
  · rw [stepState_pulse s h0 h1]
  · rw [stepState_quiet s h0 h1]

lemma stepState_ttne_pulse (s : BeepingTask) (h0 : 0 ≤ s.remaining_duration_)
    (h1 : s.time_to_next_excitation_ - s.context_.board.pwm.period ≤ 0) :
    s.stepState.time_to_next_excitation_ =
      s.time_to_next_excitation_ - s.context_.board.pwm.period
        + s.excitation_period_ := by
  rw [stepState_pulse s h0 h1]

lemma stepState_ttne_quiet (s : BeepingTask) (h0 : 0 ≤ s.remaining_duration_)
    (h1 : ¬ s.time_to_next_excitation_ - s.context_.board.pwm.period ≤ 0) :
    s.stepState.time_to_next_excitation_ =
      s.time_to_next_excitation_ - s.context_.board.pwm.period := by
  rw [stepState_quiet s h0 h1]

lemma stepState_idx_pulse (s : BeepingTask) (h0 : 0 ≤ s.remaining_duration_)
    (h1 : s.time_to_next_excitation_ - s.context_.board.pwm.period ≤ 0) :
    s.stepState.next_phase_index_ = (s.next_phase_index_ + 1) % 2 ^ 32 := by
  rw [stepState_pulse s h0 h1]

lemma stepState_idx_quiet (s : BeepingTask) (h0 : 0 ≤ s.remaining_duration_)
    (h1 : ¬ s.time_to_next_excitation_ - s.context_.board.pwm.period ≤ 0) :
    s.stepState.next_phase_index_ = s.next_phase_index_ := by
  rw [stepState_quiet s h0 h1]

lemma runN_frozen_from (s : BeepingTask) (m n : Nat)
    (h : ¬ 0 ≤ (s.runN m).remaining_duration_) (hmn : m ≤ n) :
    s.runN n = s.runN m := by
  induction n with
  | zero =>
      have hm0 : m = 0 := Nat.le_zero.mp hmn
      rw [hm0]
  | succ n ih =>
      rcases Nat.lt_or_ge m (n + 1) with hlt | hge
      · have hmn2 : m ≤ n := Nat.lt_succ_iff.mp hlt
        show (s.runN n).stepState = s.runN m
        rw [ih hmn2, stepState_frozen _ h]
      · have hme : m = n + 1 := le_antisymm hmn hge
        rw [hme]

lemma runN_rem_formula (s : BeepingTask) (n : Nat)
    (H : ∀ j : Nat, j < n →
        (j : Scalar) * s.context_.board.pwm.period ≤ s.remaining_duration_) :
    (s.runN n).remaining_duration_ =
      s.remaining_duration_ - (n : Scalar) * s.context_.board.pwm.period := by
  induction n with
  | zero => simp [BeepingTask.runN]
  | succ n ih =>
      have hrem : (s.runN n).remaining_duration_ =
          s.remaining_duration_ - (n : Scalar) * s.context_.board.pwm.period :=
        ih fun j hj => H j (Nat.lt_succ_of_lt hj)
      have hact : 0 ≤ (s.runN n).remaining_duration_ := by
        rw [hrem]
        have := H n (Nat.lt_succ_self n)
        linarith
      show (s.runN n).stepState.remaining_duration_ = _
      rw [stepState_rem_active _ hact, runN_context, hrem]
      push_cast
      ring

/-! ### Claim C9 — shape of the emitted vector -/

/-- C9: for every task state (reachable or not) and every input, the emitted
three-phase vector is the zero vector or one of the three standard basis
vectors; in particular each component is 0 or 1. -/
theorem C9_output_shape (s : BeepingTask) (ab : Scalar × Scalar) (v : Scalar) :
    ((s.onNextPWMPeriod ab v).2.1 = Vector3.zero
      ∨ (s.onNextPWMPeriod ab v).2.1 = ⟨1, 0, 0⟩
      ∨ (s.onNextPWMPeriod ab v).2.1 = ⟨0, 1, 0⟩
      ∨ (s.onNextPWMPeriod ab v).2.1 = ⟨0, 0, 1⟩)
  ∧ ((s.onNextPWMPeriod ab v).2.1.x0 = 0 ∨ (s.onNextPWMPeriod ab v).2.1.x0 = 1)
  ∧ ((s.onNextPWMPeriod ab v).2.1.x1 = 0 ∨ (s.onNextPWMPeriod ab v).2.1.x1 = 1)
  ∧ ((s.onNextPWMPeriod ab v).2.1.x2 = 0 ∨ (s.onNextPWMPeriod ab v).2.1.x2 = 1) := by
  have hout : (s.onNextPWMPeriod ab v).2.1 = Vector3.zero
      ∨ (s.onNextPWMPeriod ab v).2.1 = ⟨1, 0, 0⟩
      ∨ (s.onNextPWMPeriod ab v).2.1 = ⟨0, 1, 0⟩
      ∨ (s.onNextPWMPeriod ab v).2.1 = ⟨0, 0, 1⟩ := by
    by_cases h0 : 0 ≤ s.remaining_duration_
    · by_cases h1 : s.time_to_next_excitation_ - s.context_.board.pwm.period ≤ 0
      · have hm : s.next_phase_index_ % 3 = 0 ∨ s.next_phase_index_ % 3 = 1
            ∨ s.next_phase_index_ % 3 = 2 := by omega
        rcases hm with hm | hm | hm
        · refine Or.inr (Or.inl ?_)
          simp [BeepingTask.onNextPWMPeriod, h0, h1, hm, Vector3.set, Vector3.zero]
        · refine Or.inr (Or.inr (Or.inl ?_))
          simp [BeepingTask.onNextPWMPeriod, h0, h1, hm, Vector3.set, Vector3.zero]
        · refine Or.inr (Or.inr (Or.inr ?_))
          simp [BeepingTask.onNextPWMPeriod, h0, h1, hm, Vector3.set, Vector3.zero]
      · exact Or.inl (by simp [BeepingTask.onNextPWMPeriod, h0, h1])
    · exact Or.inl (by simp [BeepingTask.onNextPWMPeriod, h0])
  refine ⟨hout, ?_, ?_, ?_⟩ <;>
    rcases hout with h | h | h | h <;> rw [h] <;> simp [Vector3.zero]

/-! ### Claim C3 — when `driver_active` stops -/

/-- C3 counterexample: with PWM period 1 and requested duration 2 (already in
[0, 3], so the clamped duration is also 2), the cumulative elapsed PWM-period
time reaches the clamped duration at the 0-based call 1 (two calls, elapsed
2·1 = 2), yet that call and the next still return `driver_active = true`; the
task only stops at call 3. -/
theorem C3_counterexample :
    ((1:Scalar) + 1) * ctx1.board.pwm.period = DurationLimits.constrain 2
  ∧ (BeepingTask.init ctx1 100 2).activeAt 1 = true
  ∧ (BeepingTask.init ctx1 100 2).activeAt 2 = true
  ∧ (BeepingTask.init ctx1 100 2).activeAt 3 = false := by
  have hD : DurationLimits.constrain 2 = 2 := by
    norm_num [DurationLimits, Range.constrain, min_def, max_def]
  have hr0 : (BeepingTask.init ctx1 100 2).remaining_duration_ = 2 := hD
  have hT0 : (BeepingTask.init ctx1 100 2).context_.board.pwm.period = 1 := rfl
  have hH : ∀ j : Nat, j < 3 →
      (j : Scalar) * (BeepingTask.init ctx1 100 2).context_.board.pwm.period
        ≤ (BeepingTask.init ctx1 100 2).remaining_duration_ := by
    intro j hj
    rw [hr0, hT0]
    have : (j : Scalar) ≤ 2 := by exact_mod_cast Nat.lt_succ_iff.mp hj
    linarith
  refine ⟨?_, ?_, ?_, ?_⟩
  · show ((1:Scalar) + 1) * (1:Scalar) = DurationLimits.constrain 2
    rw [hD]
    norm_num
  · show ((BeepingTask.init ctx1 100 2).runN 1).onNextPWMPeriod (0, 0) 0
        |>.2.2 = true
    rw [onNextPWMPeriod_active_iff]
    rw [runN_rem_formula _ 1 fun j hj => hH j (by omega), hr0, hT0]
    norm_num
  · show ((BeepingTask.init ctx1 100 2).runN 2).onNextPWMPeriod (0, 0) 0
        |>.2.2 = true
    rw [onNextPWMPeriod_active_iff]
    rw [runN_rem_formula _ 2 fun j hj => hH j (by omega), hr0, hT0]
    norm_num
  · show ((BeepingTask.init ctx1 100 2).runN 3).onNextPWMPeriod (0, 0) 0
        |>.2.2 = false
    rw [← Bool.not_eq_true, onNextPWMPeriod_active_iff]
    rw [runN_rem_formula _ 3 hH, hr0, hT0]
    norm_num

/-- C3 (amended): for every context, requested frequency and duration, the
`n`-th (0-based) `onNextPWMPeriod` call returns `driver_active = true` iff
`n · period ≤ clamped duration`; equivalently, the task keeps asserting
`driver_active` through the call at which the cumulative elapsed time reaches
the clamped duration and stops exactly at the first call entered with the
remaining duration already negative (`n · period > clamped duration`), one
call after the remaining duration is exhausted. -/
theorem C3_amended_driver_active_iff (ctx : TaskContext) (f d : Scalar)
    (n : Nat) (ab : Scalar × Scalar) (v : Scalar) :
    (((BeepingTask.init ctx f d).runN n).onNextPWMPeriod ab v).2.2 = true
      ↔ (n : Scalar) * ctx.board.pwm.period ≤ DurationLimits.constrain d := by
  have hD0 : 0 ≤ DurationLimits.constrain d := (constrain_duration_bounds d).1
  have hr0 : (BeepingTask.init ctx f d).remaining_duration_
      = DurationLimits.constrain d := rfl
  have hT0 : (BeepingTask.init ctx f d).context_.board.pwm.period
      = ctx.board.pwm.period := rfl
  rw [onNextPWMPeriod_active_iff]
  constructor
  · intro hact
    by_contra hn
    push_neg at hn
    have hT : 0 < ctx.board.pwm.period := by
      by_contra hT
      push_neg at hT
      have : (n : Scalar) * ctx.board.pwm.period ≤ 0 :=
        mul_nonpos_of_nonneg_of_nonpos (Nat.cast_nonneg n) hT
      linarith
    have hex : ∃ m : Nat,
        DurationLimits.constrain d < (m : Scalar) * ctx.board.pwm.period :=
      ⟨n, hn⟩
    have hm0 : DurationLimits.constrain d
        < (Nat.find hex : Scalar) * ctx.board.pwm.period := Nat.find_spec hex
    have hm0le : Nat.find hex ≤ n := Nat.find_min' hex hn
    have hH3 : ∀ j : Nat, j < Nat.find hex →
        (j : Scalar) * (BeepingTask.init ctx f d).context_.board.pwm.period
          ≤ (BeepingTask.init ctx f d).remaining_duration_ := by
      intro j hj
      rw [hT0, hr0]
      exact not_lt.mp (Nat.find_min hex hj)
    have hrm : ((BeepingTask.init ctx f d).runN (Nat.find hex)).remaining_duration_
        = DurationLimits.constrain d
          - (Nat.find hex : Scalar) * ctx.board.pwm.period := by
      rw [runN_rem_formula _ (Nat.find hex) hH3, hr0, hT0]
    have hneg : ¬ 0 ≤ ((BeepingTask.init ctx f d).runN
        (Nat.find hex)).remaining_duration_ := by
      rw [hrm]
      linarith
    rw [runN_frozen_from _ (Nat.find hex) n hneg hm0le] at hact
    exact hneg hact
  · intro hn
    have hH : ∀ j : Nat, j < n + 1 →
        (j : Scalar) * ctx.board.pwm.period ≤ DurationLimits.constrain d := by
      intro j hj
      rcases le_or_lt 0 ctx.board.pwm.period with hT | hT
      · calc (j : Scalar) * ctx.board.pwm.period
            ≤ (n : Scalar) * ctx.board.pwm.period := by
              have : (j : Scalar) ≤ (n : Scalar) := by
                exact_mod_cast Nat.lt_succ_iff.mp hj
              exact mul_le_mul_of_nonneg_right this hT
          _ ≤ DurationLimits.constrain d := hn
      · have : (j : Scalar) * ctx.board.pwm.period ≤ 0 :=
          mul_nonpos_of_nonneg_of_nonpos (Nat.cast_nonneg j) (le_of_lt hT)
        linarith
    have hH2 : ∀ j : Nat, j < n →
        (j : Scalar) * (BeepingTask.init ctx f d).context_.board.pwm.period
          ≤ (BeepingTask.init ctx f d).remaining_duration_ := by
      intro j hj
      rw [hT0, hr0]
      exact hH j (Nat.lt_succ_of_lt hj)
    rw [runN_rem_formula _ n hH2, hr0, hT0]
    linarith

/-- C3 witness: with PWM period 1 and clamped duration 2, call 2 (elapsed
entering it: 2 ≤ 2) is still active and call 3 (elapsed entering it: 3 > 2)
is not. -/
theorem C3_witness :
    ((2 : Scalar) * ctx1.board.pwm.period ≤ DurationLimits.constrain 2
      ∧ (((BeepingTask.init ctx1 100 2).runN 2).onNextPWMPeriod (0, 0) 0).2.2
          = true)
  ∧ (¬ (3 : Scalar) * ctx1.board.pwm.period ≤ DurationLimits.constrain 2
      ∧ (((BeepingTask.init ctx1 100 2).runN 3).onNextPWMPeriod (0, 0) 0).2.2
          ≠ true) := by
  have hD : DurationLimits.constrain 2 = 2 := by
    norm_num [DurationLimits, Range.constrain, min_def, max_def]
  have hT0 : ctx1.board.pwm.period = 1 := rfl
  have h2 : (2 : Scalar) * ctx1.board.pwm.period ≤ DurationLimits.constrain 2 := by
    rw [hD, hT0]; norm_num
  have h3 : ¬ (3 : Scalar) * ctx1.board.pwm.period ≤ DurationLimits.constrain 2 := by
    rw [hD, hT0]; norm_num
  refine ⟨⟨h2, ?_⟩, ⟨h3, ?_⟩⟩
  · exact (C3_amended_driver_active_iff ctx1 100 2 2 (0, 0) 0).mpr (by
      exact_mod_cast h2)
  · intro hact
    exact h3 (by exact_mod_cast
      (C3_amended_driver_active_iff ctx1 100 2 3 (0, 0) 0).mp hact)

/-! ### Claim C4 — pulse phases advance round-robin -/

lemma pulseCnt_succ_of_pulse (s : BeepingTask) (n : Nat) (c : Nat)
    (h : s.pulseAt n = some c) : s.pulseCnt (n + 1) = s.pulseCnt n + 1 := by
  simp [BeepingTask.pulseCnt, h]

lemma pulseCnt_succ_of_none (s : BeepingTask) (n : Nat)
    (h : s.pulseAt n = none) : s.pulseCnt (n + 1) = s.pulseCnt n := by
  simp [BeepingTask.pulseCnt, h]

lemma pulseCnt_stable (s : BeepingTask) (m n : Nat) (hmn : m ≤ n)
    (h : ∀ j, m ≤ j → j < n → s.pulseAt j = none) :
    s.pulseCnt n = s.pulseCnt m := by
  induction n with
  | zero =>
      have hm0 : m = 0 := Nat.le_zero.mp hmn
      rw [hm0]
  | succ n ih =>
      rcases Nat.lt_or_ge m (n + 1) with hlt | hge
      · have hmn2 : m ≤ n := Nat.lt_succ_iff.mp hlt
        rw [pulseCnt_succ_of_none s n (h n hmn2 (Nat.lt_succ_self n))]
        exact ih hmn2 fun j h1 h2 => h j h1 (Nat.lt_succ_of_lt h2)
      · rw [le_antisymm hmn hge]

lemma runN_invariant (s : BeepingTask) (hidx : s.next_phase_index_ < 2 ^ 32)
    (n : Nat) :
    ((s.runN n).remaining_duration_
        = s.remaining_duration_
          - (s.activeCnt n : Scalar) * s.context_.board.pwm.period)
  ∧ ((s.runN n).time_to_next_excitation_
        = s.time_to_next_excitation_
          - (s.activeCnt n : Scalar) * s.context_.board.pwm.period
          + (s.pulseCnt n : Scalar) * s.excitation_period_)
  ∧ ((s.runN n).next_phase_index_
        = (s.next_phase_index_ + s.pulseCnt n) % 2 ^ 32)
  ∧ s.pulseCnt n ≤ s.activeCnt n
  ∧ (s.activeCnt n = 0
      ∨ ((s.activeCnt n : Scalar) - 1) * s.context_.board.pwm.period
          ≤ s.remaining_duration_) := by
  have hM : (2:Nat) ^ 32 = 4294967296 := by norm_num
  induction n with
  | zero =>
      refine ⟨?_, ?_, ?_, ?_, Or.inl rfl⟩
      · simp [BeepingTask.runN, BeepingTask.activeCnt]
      · simp [BeepingTask.runN, BeepingTask.activeCnt, BeepingTask.pulseCnt]
      · show s.next_phase_index_ = (s.next_phase_index_ + s.pulseCnt 0) % 2 ^ 32
        rw [show s.pulseCnt 0 = 0 from rfl, Nat.add_zero,
          Nat.mod_eq_of_lt hidx]
      · simp [BeepingTask.pulseCnt, BeepingTask.activeCnt]
  | succ n ih =>
      obtain ⟨ihrem, ihttne, ihidx, ihple, ihbound⟩ := ih
      by_cases hA : 0 ≤ (s.runN n).remaining_duration_
      · have hCnt : s.activeCnt (n + 1) = s.activeCnt n + 1 := by
          simp [BeepingTask.activeCnt, hA]
        by_cases hP : (s.runN n).time_to_next_excitation_
            - (s.runN n).context_.board.pwm.period ≤ 0
        · have hpul : s.pulseAt n
              = some ((s.runN n).next_phase_index_ % 3) := by
            simp [BeepingTask.pulseAt, hA, hP]
          have hpCnt : s.pulseCnt (n + 1) = s.pulseCnt n + 1 :=
            pulseCnt_succ_of_pulse s n _ hpul
          refine ⟨?_, ?_, ?_, ?_, ?_⟩
          · show (s.runN n).stepState.remaining_duration_ = _
            rw [stepState_rem_active _ hA, runN_context, ihrem, hCnt]
            push_cast
            ring
          · show (s.runN n).stepState.time_to_next_excitation_ = _
            rw [stepState_ttne_pulse _ hA hP, runN_context, runN_excitation,
              ihttne, hCnt, hpCnt]
            push_cast
            ring
          · show (s.runN n).stepState.next_phase_index_ = _
            rw [stepState_idx_pulse _ hA hP, ihidx, hpCnt, hM]
            omega
          · rw [hpCnt, hCnt]
            omega
          · right
            rw [hCnt]
            rw [ihrem] at hA
            push_cast
            have hexp : ((s.activeCnt n : Scalar) + 1 - 1)
                * s.context_.board.pwm.period
                = (s.activeCnt n : Scalar) * s.context_.board.pwm.period := by
              ring
            rw [hexp]
            linarith
        · have hpul : s.pulseAt n = none := by
            simp [BeepingTask.pulseAt, hA, hP]
          have hpCnt : s.pulseCnt (n + 1) = s.pulseCnt n :=
            pulseCnt_succ_of_none s n hpul
          refine ⟨?_, ?_, ?_, ?_, ?_⟩
          · show (s.runN n).stepState.remaining_duration_ = _
            rw [stepState_rem_active _ hA, runN_context, ihrem, hCnt]
            push_cast
            ring
          · show (s.runN n).stepState.time_to_next_excitation_ = _
            rw [stepState_ttne_quiet _ hA hP, runN_context, ihttne, hCnt, hpCnt]
            push_cast
            ring
          · show (s.runN n).stepState.next_phase_index_ = _
            rw [stepState_idx_quiet _ hA hP, ihidx, hpCnt]
          · rw [hpCnt, hCnt]
            omega
          · right
            rw [hCnt]
            rw [ihrem] at hA
            push_cast
            have hexp : ((s.activeCnt n : Scalar) + 1 - 1)
                * s.context_.board.pwm.period
                = (s.activeCnt n : Scalar) * s.context_.board.pwm.period := by
              ring
            rw [hexp]
            linarith
      · have hCnt : s.activeCnt (n + 1) = s.activeCnt n := by
          simp [BeepingTask.activeCnt, hA]
        have hpul : s.pulseAt n = none := by
          simp [BeepingTask.pulseAt, hA]
        have hpCnt : s.pulseCnt (n + 1) = s.pulseCnt n :=
          pulseCnt_succ_of_none s n hpul
        have hfr : s.runN (n + 1) = s.runN n := stepState_frozen _ hA
        refine ⟨?_, ?_, ?_, ?_, ?_⟩
        · rw [hfr, hCnt]
          exact ihrem
        · rw [hfr, hCnt, hpCnt]
          exact ihttne
        · rw [hfr, hpCnt]
          exact ihidx
        · rw [hpCnt, hCnt]
          exact ihple
        · rw [hCnt]
          exact ihbound

lemma runN_ttne_le (s : BeepingTask) (hT : 0 < s.context_.board.pwm.period)
    (h0 : s.time_to_next_excitation_ ≤ s.excitation_period_) (n : Nat) :
    (s.runN n).time_to_next_excitation_ ≤ s.excitation_period_ := by
  induction n with
  | zero => exact h0
  | succ n ih =>
      by_cases hA : 0 ≤ (s.runN n).remaining_duration_
      · by_cases hP : (s.runN n).time_to_next_excitation_
            - (s.runN n).context_.board.pwm.period ≤ 0
        · show (s.runN n).stepState.time_to_next_excitation_ ≤ _
          rw [stepState_ttne_pulse _ hA hP, runN_excitation]
          linarith
        · show (s.runN n).stepState.time_to_next_excitation_ ≤ _
          rw [stepState_ttne_quiet _ hA hP, runN_context]
          linarith
      · show (s.runN n).stepState.time_to_next_excitation_ ≤ _
        rw [stepState_frozen _ hA]
        exact ih

lemma runN_ttne_pos (s : BeepingTask) (hT : s.context_.board.pwm.period ≤ 0)
    (h0 : 0 < s.time_to_next_excitation_) (n : Nat) :
    0 < (s.runN n).time_to_next_excitation_ := by
  induction n with
  | zero => exact h0
  | succ n ih =>
      by_cases hA : 0 ≤ (s.runN n).remaining_duration_
      · by_cases hP : (s.runN n).time_to_next_excitation_
            - (s.runN n).context_.board.pwm.period ≤ 0
        · exfalso
          have hTc : (s.runN n).context_.board.pwm.period ≤ 0 := by
            rw [runN_context]
            exact hT
          linarith
        · show 0 < (s.runN n).stepState.time_to_next_excitation_
          rw [stepState_ttne_quiet _ hA hP, runN_context]
          linarith
      · show 0 < (s.runN n).stepState.time_to_next_excitation_
        rw [stepState_frozen _ hA]
        exact ih

lemma pulseAt_none_of_nonpos (s : BeepingTask)
    (hT : s.context_.board.pwm.period ≤ 0)
    (h0 : 0 < s.time_to_next_excitation_) (n : Nat) :
    s.pulseAt n = none := by
  have h1 := runN_ttne_pos s hT h0 n
  have hTc : (s.runN n).context_.board.pwm.period ≤ 0 := by
    rw [runN_context]
    exact hT
  simp only [BeepingTask.pulseAt]
  rw [if_neg]
  rintro ⟨-, h⟩
  linarith

lemma pulseCnt_le_bound (ctx : TaskContext) (f d : Scalar) (n : Nat) :
    (BeepingTask.init ctx f d).pulseCnt n ≤ 60000 := by
  have hEpos : (0:ℚ) < 1 / FrequencyLimits.constrain f :=
    lt_of_lt_of_le (by norm_num) (excitation_period_bounds f).1
  rcases le_or_lt ctx.board.pwm.period 0 with hT | hT
  · have hz : ∀ m : Nat, (BeepingTask.init ctx f d).pulseCnt m = 0 := by
      intro m
      induction m with
      | zero => rfl
      | succ m ih =>
          rw [pulseCnt_succ_of_none _ m
            (pulseAt_none_of_nonpos _ hT hEpos m), ih]
    rw [hz n]
    omega
  · obtain ⟨ihrem, ihttne, ihidx, ihple, ihbound⟩ :=
      runN_invariant (BeepingTask.init ctx f d)
        (by show (0:Nat) < 2 ^ 32; norm_num) n
    have httle := runN_ttne_le (BeepingTask.init ctx f d) hT le_rfl n
    have hE1 : (1:ℚ) / 15000 ≤ 1 / FrequencyLimits.constrain f :=
      (excitation_period_bounds f).1
    have hD3 : DurationLimits.constrain d ≤ 3 := (constrain_duration_bounds d).2
    have hD0 : 0 ≤ DurationLimits.constrain d := (constrain_duration_bounds d).1
    have hTq : (BeepingTask.init ctx f d).context_.board.pwm.period
        = ctx.board.pwm.period := rfl
    have hEq : (BeepingTask.init ctx f d).excitation_period_
        = 1 / FrequencyLimits.constrain f := rfl
    have htq : (BeepingTask.init ctx f d).time_to_next_excitation_
        = 1 / FrequencyLimits.constrain f := rfl
    have hDq : (BeepingTask.init ctx f d).remaining_duration_
        = DurationLimits.constrain d := rfl
    rw [ihttne, hTq, hEq, htq] at httle
    rw [hTq, hDq] at ihbound
    have hAT : ((BeepingTask.init ctx f d).activeCnt n : Scalar)
        * ctx.board.pwm.period ≤ 3 + ctx.board.pwm.period := by
      rcases ihbound with h | h
      · rw [h]
        push_cast
        linarith
      · have hexp : (((BeepingTask.init ctx f d).activeCnt n : Scalar) - 1)
            * ctx.board.pwm.period
            = ((BeepingTask.init ctx f d).activeCnt n : Scalar)
              * ctx.board.pwm.period - ctx.board.pwm.period := by
          ring
        rw [hexp] at h
        linarith
    rcases le_or_lt ctx.board.pwm.period 1 with hT1 | hT1
    · have hc2 : ((BeepingTask.init ctx f d).pulseCnt n : Scalar)
          * (1 / FrequencyLimits.constrain f)
          ≤ ((BeepingTask.init ctx f d).activeCnt n : Scalar)
            * ctx.board.pwm.period := by
        linarith
      have hc1 : ((BeepingTask.init ctx f d).pulseCnt n : Scalar) * (1/15000)
          ≤ ((BeepingTask.init ctx f d).pulseCnt n : Scalar)
            * (1 / FrequencyLimits.constrain f) :=
        mul_le_mul_of_nonneg_left hE1 (Nat.cast_nonneg _)
      have hple2 : ((BeepingTask.init ctx f d).pulseCnt n : Scalar) ≤ 60000 := by
        linarith
      exact_mod_cast hple2
    · have ha4 : (BeepingTask.init ctx f d).activeCnt n ≤ 4 := by
        rcases ihbound with h | h
        · omega
        · by_contra hc
          push_neg at hc
          have h5 : (5:ℚ) ≤ ((BeepingTask.init ctx f d).activeCnt n : Scalar) := by
            exact_mod_cast hc
          have hmul : (4:ℚ) * 1
              ≤ (((BeepingTask.init ctx f d).activeCnt n : Scalar) - 1)
                * ctx.board.pwm.period := by
            apply mul_le_mul (by linarith) (le_of_lt hT1) (by norm_num)
              (by linarith)
          linarith
      calc (BeepingTask.init ctx f d).pulseCnt n
          ≤ (BeepingTask.init ctx f d).activeCnt n := ihple
        _ ≤ 4 := ha4
        _ ≤ 60000 := by omega

lemma runN_idx_eq_pulseCnt (ctx : TaskContext) (f d : Scalar) (n : Nat) :
    ((BeepingTask.init ctx f d).runN n).next_phase_index_
      = (BeepingTask.init ctx f d).pulseCnt n := by
  have hidx := (runN_invariant (BeepingTask.init ctx f d)
    (by show (0:Nat) < 2 ^ 32; norm_num) n).2.2.1
  have hlt : (BeepingTask.init ctx f d).pulseCnt n < 2 ^ 32 :=
    lt_of_le_of_lt (pulseCnt_le_bound ctx f d n) (by norm_num)
  rw [hidx]
  show (0 + _) % 2 ^ 32 = _
  rw [Nat.zero_add]
  exact Nat.mod_eq_of_lt hlt

lemma pulseAt_phase (ctx : TaskContext) (f d : Scalar) (n c : Nat)
    (h : (BeepingTask.init ctx f d).pulseAt n = some c) :
    c = (BeepingTask.init ctx f d).pulseCnt n % 3 := by
  simp only [BeepingTask.pulseAt] at h
  split_ifs at h with hcond
  have h3 := Option.some.inj h
  rw [← h3, runN_idx_eq_pulseCnt]

/-- C4: the pulses emitted over the whole lifetime of a constructed beeping
task visit the phases in strict round-robin order: the first pulse lands on
phase 0, and for every pair of consecutive pulses the later phase is the
earlier phase plus one modulo 3.  (The proof shows the `unsigned` phase
counter never wraps: a task emits at most 60000 pulses, far below `2 ^ 32`.) -/
theorem C4_round_robin (ctx : TaskContext) (f d : Scalar) :
    (∀ m a, (∀ j, j < m → (BeepingTask.init ctx f d).pulseAt j = none) →
        (BeepingTask.init ctx f d).pulseAt m = some a → a = 0)
  ∧ (∀ m n a b, m < n →
        (BeepingTask.init ctx f d).pulseAt m = some a →
        (BeepingTask.init ctx f d).pulseAt n = some b →
        (∀ j, m < j → j < n → (BeepingTask.init ctx f d).pulseAt j = none) →
        b = (a + 1) % 3) := by
  constructor
  · intro m a hnone hm
    have h1 : (BeepingTask.init ctx f d).pulseCnt m
        = (BeepingTask.init ctx f d).pulseCnt 0 :=
      pulseCnt_stable _ 0 m (Nat.zero_le m) fun j h0 hj => hnone j hj
    have h2 := pulseAt_phase ctx f d m a hm
    rw [h1] at h2
    simpa using h2
  · intro m n a b hmn hm hn hbet
    have ha := pulseAt_phase ctx f d m a hm
    have hb := pulseAt_phase ctx f d n b hn
    have hstep := pulseCnt_succ_of_pulse _ m a hm
    have hstab : (BeepingTask.init ctx f d).pulseCnt n
        = (BeepingTask.init ctx f d).pulseCnt (m + 1) :=
      pulseCnt_stable _ (m + 1) n hmn fun j h1 h2 => hbet j h1 h2
    rw [hstab, hstep] at hb
    omega

/-- C4 witness: frequency 15000 Hz with PWM period 1 pulses on every call;
the first two pulses land on phases 0 and 1, and 1 = (0 + 1) % 3 as the
round-robin theorem demands. -/
theorem C4_witness :
    (BeepingTask.init ctx1 15000 3).pulseAt 0 = some 0
  ∧ (BeepingTask.init ctx1 15000 3).pulseAt 1 = some 1
  ∧ (1 : Nat) = (0 + 1) % 3 := by
  have h0 : (BeepingTask.init ctx1 15000 3).pulseAt 0 = some 0 := by
    norm_num [BeepingTask.pulseAt, BeepingTask.runN, BeepingTask.init, ctx1,
      sampleParams, DurationLimits, FrequencyLimits, Range.constrain,
      min_def, max_def]
  have h1 : (BeepingTask.init ctx1 15000 3).pulseAt 1 = some 1 := by
    norm_num [BeepingTask.pulseAt, BeepingTask.runN, BeepingTask.stepState,
      BeepingTask.onNextPWMPeriod, BeepingTask.init, ctx1, sampleParams,
      DurationLimits, FrequencyLimits, Range.constrain, min_def, max_def]
  exact ⟨h0, h1,
    (C4_round_robin ctx1 15000 3).2 0 1 0 1 (by omega) h0 h1
      fun j hj1 hj2 => absurd hj2 (by omega)⟩

/-! ### Claim C10 — `EventCounter` -/

/-- C10: `increment` adds exactly one modulo `2 ^ 64` to the count returned by
`get`; the counter strictly increases while below `2 ^ 64 - 1` and wraps to
zero from `2 ^ 64 - 1`. -/
theorem C10_event_counter (c : EventCounter) :
    c.increment.get = (c.get + 1) % 2 ^ 64
  ∧ (c.get < 2 ^ 64 - 1 → c.get < c.increment.get)
  ∧ (c.get = 2 ^ 64 - 1 → c.increment.get = 0) := by
  have hpow : (2:Nat) ^ 64 = 18446744073709551616 := by norm_num
  refine ⟨rfl, ?_, ?_⟩
  · intro h
    have h2 : c.cnt_ < 2 ^ 64 - 1 := h
    show c.cnt_ < (c.cnt_ + 1) % 2 ^ 64
    rw [hpow] at h2 ⊢
    omega
  · intro h
    have h2 : c.cnt_ = 2 ^ 64 - 1 := h
    show (c.cnt_ + 1) % 2 ^ 64 = 0
    rw [hpow] at h2 ⊢
    omega

/-- C10 witness: a counter at 5 increments to 6; a counter at `2 ^ 64 - 1`
wraps to 0. -/
theorem C10_witness :
    ((5:Nat) < 2 ^ 64 - 1 ∧ (5:Nat) < (EventCounter.increment ⟨5⟩).get)
  ∧ (EventCounter.increment ⟨2 ^ 64 - 1⟩).get = 0 :=
  ⟨⟨by decide, (C10_event_counter ⟨5⟩).2.1 (by decide)⟩,
   (C10_event_counter ⟨2 ^ 64 - 1⟩).2.2 rfl⟩

end PX4ESC
